import Mathlib

/-!
Verification development for the defou-workflow-agent repository.

The repository has two pipelines:
* Pipeline A (watched list processor): parse markdown links from a dropped
  file, fetch each linked article, generate a styled rewrite via a model
  call, save outputs, archive the input file, and best-effort trigger a
  verification hook.
* Pipeline B (tophub trend scraper): fetch a hot list page, scrape ranked
  items, save the raw list, ask the model for an analysis, save the report;
  any thrown error exits the process with code 1.

Strings are embedded as `List Char`.  Effectful operations (HTTP fetch,
HTML readability extraction, the model call, the file system) are
represented by explicit environment values describing what the external
world returns; file-system writes are recorded in the result values.
-/

/-- JavaScript `String.prototype.trim`: drop whitespace from both ends. -/
def trim (l : List Char) : List Char :=
  ((l.dropWhile Char.isWhitespace).reverse.dropWhile Char.isWhitespace).reverse

/-- The characters of the literal "http", used by the link filter
`link.startsWith('http')` in `parseMarkdownLinks`. -/
def httpChars : List Char := "http".toList

/-- One link discovered in an input list: `interface ArticleItem`. -/
structure ArticleItem where
  title : List Char
  link : List Char
deriving DecidableEq, Repr

/-- One attempt of the regex `\[([^\]]+)\]\(([^)]+)\)` at a position whose
character was `[`; `l` is the text after that `[`.  Each character class
excludes its closing delimiter, so greedy matching is equivalent to taking
the maximal run and then requiring the delimiter.  Returns the raw capture
groups and the rest of the text after the match. -/
def matchAt (l : List Char) : Option (List Char × List Char × List Char) :=
  let t := l.takeWhile (fun c => c ≠ ']')
  if t.isEmpty then none else
  match l.dropWhile (fun c => c ≠ ']') with
  | ']' :: '(' :: r2 =>
    let u := r2.takeWhile (fun c => c ≠ ')')
    if u.isEmpty then none else
    match r2.dropWhile (fun c => c ≠ ')') with
    | ')' :: r3 => some (t, u, r3)
    | _ => none
  | _ => none

/-- Scan loop for all `[Title](URL)` occurrences, fuelled so the recursion
is structural.  Each step consumes at least one character, so fuel equal to
the text length never truncates the scan.  After a successful match the
scan resumes right after it (the global regex advances `lastIndex`); after
a failed attempt it resumes one character later. -/
def scanLinksAux : Nat → List Char → List (List Char × List Char)
  | 0, _ => []
  | _ + 1, [] => []
  | fuel + 1, c :: rest =>
    if c = '[' then
      match matchAt rest with
      | some (t, u, r) => (t, u) :: scanLinksAux fuel r
      | none => scanLinksAux fuel rest
    else scanLinksAux fuel rest

/-- All `[Title](URL)` occurrences of the text in left-to-right order of
appearance, as raw (untrimmed, unfiltered) capture pairs: the successive
matches of `regex.exec` with the global flag. -/
def scanLinks (l : List Char) : List (List Char × List Char) :=
  scanLinksAux l.length l

/-- Loop body of `parseMarkdownLinks` from the source, fuelled like
`scanLinksAux`: per regex match, trim both capture groups and push the item
only when the title and link are non-empty and the link starts with
"http". -/
def parseMarkdownLinksAux : Nat → List Char → List ArticleItem
  | 0, _ => []
  | _ + 1, [] => []
  | fuel + 1, c :: rest =>
    if c = '[' then
      match matchAt rest with
      | some (t, u, r) =>
        let title := trim t
        let link := trim u
        if !title.isEmpty && !link.isEmpty && httpChars.isPrefixOf link then
          ⟨title, link⟩ :: parseMarkdownLinksAux fuel r
        else
          parseMarkdownLinksAux fuel r
      | none => parseMarkdownLinksAux fuel rest
    else parseMarkdownLinksAux fuel rest

/-- `parseMarkdownLinks` from the source. -/
def parseMarkdownLinks (l : List Char) : List ArticleItem :=
  parseMarkdownLinksAux l.length l

example : parseMarkdownLinks "- [AI News](https://example.com/a)".toList
    = [⟨"AI News".toList, "https://example.com/a".toList⟩] := by decide

example : parseMarkdownLinks "[x]( notHttp ) [ t ](  http://a  )".toList
    = [⟨"t".toList, "http://a".toList⟩] := by decide

example : scanLinks "[a](b) [](c)".toList
    = [("a".toList, "b".toList)] := by decide

/-! ## Article fetcher (Pipeline A) -/

/-- Environment of one `fetchArticleContent` call: what the HTTP transport
and the Readability extraction produce for the requested URL. -/
inductive FetchEnv
  | transportError
  | httpNotOk (statusText : List Char)
  | parseNull
  | parsed (textContent : List Char)

/-- The sentinel failure string returned by `fetchArticleContent` on every
failure path. -/
def failSentinel (url : List Char) : List Char :=
  "[Failed to fetch content from ".toList ++ url ++ "]".toList

/-- `fetchArticleContent` from the source.  The try block throws on a
non-ok response, a null Readability article, or an empty `textContent`;
the catch returns the sentinel.  On success the text is trimmed and cut to
15000 characters. -/
def fetchArticleContent (url : List Char) (env : FetchEnv) : List Char :=
  match env with
  | .parsed t => if t.isEmpty then failSentinel url else (trim t).take 15000
  | _ => failSentinel url

/-- A fetch environment on which the try block of `fetchArticleContent`
reaches its normal return (every other environment takes a failure path). -/
def FetchEnv.isSuccess : FetchEnv → Bool
  | .parsed t => !t.isEmpty
  | _ => false

/-! ## Model call result shape -/

/-- One block of `msg.content` in the model response: a text block carries
a `text` field, every other block kind does not. -/
inductive ContentBlock
  | text (s : List Char)
  | other
deriving DecidableEq, Repr

/-- A JavaScript value produced by `(msg.content[0] as any).text`: either a
string or `undefined`. -/
inductive JSVal
  | str (s : List Char)
  | undefined
deriving DecidableEq, Repr

/-- JavaScript semantics of `(msg.content[0] as any).text`: indexing an
empty array gives `undefined` and reading `.text` of `undefined` throws a
TypeError; reading `.text` of a non-text block gives `undefined`. -/
def jsFirstText : List ContentBlock → Except Unit JSVal
  | [] => .error ()
  | .text s :: _ => .ok (.str s)
  | .other :: _ => .ok .undefined

/-- `await anthropic.messages.create(...)` followed by
`(msg.content[0] as any).text`: the call itself may reject (error), else
the first block is read as above. -/
def modelFirstText (api : Except Unit (List ContentBlock)) : Except Unit JSVal :=
  match api with
  | .error _ => .error ()
  | .ok blocks => jsFirstText blocks

/-! ## Content generator (Pipeline A) -/

/-- The fixed mock-mode return value of `generateContent`. -/
def mockContent (articleTitle : List Char) : List Char :=
  "# Mock Content for ".toList ++ articleTitle
    ++ "\n\nGenerated in Mock Mode.".toList

/-- The content excerpt embedded in the live prompt:
`articleContent.slice(0, 8000)`. -/
def promptExcerpt (articleContent : List Char) : List Char :=
  articleContent.take 8000

/-- `generateContent` from the source.  In mock mode it returns the fixed
placeholder before any model interaction; in live mode it builds the prompt
(embedding the title and the 8000-character excerpt; the `sourceLink`
parameter is unused by the prompt) and returns the first segment of the
model response.  `api` is what the model call produces. -/
def generateContent (mock : Bool) (articleTitle articleContent sourceLink : List Char)
    (api : Except Unit (List ContentBlock)) : Except Unit JSVal :=
  if mock then .ok (.str (mockContent articleTitle))
  else
    let _excerpt := promptExcerpt articleContent
    let _link := sourceLink
    modelFirstText api

/-! ## Batch orchestrator (Pipeline A) -/

/-- The skip check in the per-article task:
`content.startsWith('[Failed')`. -/
def startsWithFailed (content : List Char) : Bool :=
  "[Failed".toList.isPrefixOf content

/-- Result of one per-article task: skipped on the fetch-failure prefix,
failed when generation threw (caught per task), or saved with the
generated value. -/
inductive TaskOutcome
  | skip
  | failed
  | saved (v : JSVal)
deriving DecidableEq, Repr

def TaskOutcome.isSkip : TaskOutcome → Bool
  | .skip => true
  | _ => false

def TaskOutcome.isSaved : TaskOutcome → Bool
  | .saved _ => true
  | _ => false

/-- Environment of one `processInputFile` call: whether the file still
exists after the debounce delay, the mock flag, the epoch-millisecond clock
used for the archive name, and per-article-index fetch and model-call
environments. -/
structure ProcEnv where
  fileExists : Bool
  mockMode : Bool
  now : Nat
  fetchEnv : Nat → FetchEnv
  apiResp : Nat → Except Unit (List ContentBlock)

/-- Observable outcome of `processInputFile`: how many output files were
written, how many tasks were skipped, the archive rename target (none if
the file was not archived), and whether the verification hook fired. -/
structure ProcResult where
  outputsCount : Nat
  skipped : Nat
  archivePath : Option (List Char)
  verifyFired : Bool
deriving DecidableEq, Repr

/-- One per-article task of `processInputFile`: fetch, skip on the
`[Failed` prefix, else generate and save; generation errors are caught at
the task boundary.  File writes are modeled as succeeding. -/
def runTask (env : ProcEnv) (i : Nat) (a : ArticleItem) : TaskOutcome :=
  let content := fetchArticleContent a.link (env.fetchEnv i)
  if startsWithFailed content then .skip
  else
    match generateContent env.mockMode a.title content a.link (env.apiResp i) with
    | .error _ => .failed
    | .ok v => .saved v

/-- `processInputFile` from the source: after the debounce, re-check
existence; read and parse the file; with zero links, return without
archiving; otherwise run one task per article (the concurrency cap of 2
affects only interleaving, not any recorded outcome), then archive the
file under `<epoch-ms>_<filename>` and fire the verification hook exactly
when at least one task saved an output. -/
def processInputFile (filename content : List Char) (env : ProcEnv) : ProcResult :=
  if env.fileExists then
    let articles := parseMarkdownLinks content
    if articles.isEmpty then ⟨0, 0, none, false⟩
    else
      let outcomes := articles.enum.map (fun p => runTask env p.1 p.2)
      let succ := outcomes.countP TaskOutcome.isSaved
      ⟨succ, outcomes.countP TaskOutcome.isSkip,
        some ((Nat.repr env.now).toList ++ '_' :: filename),
        decide (0 < succ)⟩
  else ⟨0, 0, none, false⟩

/-! ## Pipeline B: tophub trend scraper -/

namespace Tophub

/-- `interface HotItem` from the source. -/
structure HotItem where
  rank : List Char
  title : List Char
  link : List Char
  hot : List Char
  source : List Char
deriving DecidableEq, Repr

/-- One scraped `.child-item` DOM node, by the texts the code reads from
it: the `.left-item span` text, the `.medium-txt a` text and href
attribute (none when absent), and the `.small-txt` text. -/
structure ChildItem where
  rankTxt : List Char
  titleTxt : List Char
  href : Option (List Char)
  smallTxt : List Char
deriving DecidableEq, Repr

/-- The site origin prepended to relative links. -/
def origin : List Char := "https://tophub.today".toList

/-- The separator of the "source ‧ popularity" label (U+2027). -/
def sepDot : Char := '‧'

/-- Per-node body of the `$('.child-item').each` loop in `fetchHotList`:
trim the texts, resolve a non-http link against the origin, split the
small text on the middle dot into source and popularity (missing parts
default to the empty string), and keep the item only if the title is
non-empty. -/
def scrapeItem (el : ChildItem) : Option HotItem :=
  let rank := trim el.rankTxt
  let title := trim el.titleTxt
  let link := el.href.getD []
  let fullLink := if httpChars.isPrefixOf link then link else origin ++ link
  let smallTxt := trim el.smallTxt
  let parts := (smallTxt.splitOn sepDot).map trim
  let source := parts.getD 0 []
  let hot := parts.getD 1 []
  if title.isEmpty then none
  else some ⟨rank, title, fullLink, hot, source⟩

/-- Environment of one `fetchHotList` call: the transport may reject, or
return a response with an ok flag and the scraped list nodes in DOM
order. -/
inductive HotFetchEnv
  | transportError
  | response (ok : Bool) (nodes : List ChildItem)

/-- `fetchHotList` from the source: throw on transport failure or non-ok
status, else scrape each `.child-item` node in DOM order. -/
def fetchHotList (env : HotFetchEnv) : Except Unit (List HotItem) :=
  match env with
  | .transportError => .error ()
  | .response ok nodes =>
    if ok then .ok (nodes.filterMap scrapeItem) else .error ()

/-- One line of the prompt block: how `analyzeHotList` renders an item. -/
def renderHotItem (it : HotItem) : List Char :=
  it.rank ++ ". [".toList ++ it.source ++ "] ".toList ++ it.title
    ++ " (Hot: ".toList ++ it.hot ++ ") - Link: ".toList ++ it.link

/-- The prompt block of `analyzeHotList`: the first 30 items by scrape
order, rendered and joined with newlines. -/
def promptItemsText (items : List HotItem) : List Char :=
  List.intercalate "\n".toList ((items.take 30).map renderHotItem)

/-- The fixed mock-mode return value of `analyzeHotList`. -/
def mockAnalysis : List Char :=
  "# Mock Analysis\n\n- Mock Suggestion 1\n- Mock Suggestion 2".toList

/-- `analyzeHotList` from the source: build the prompt from the top 30
items, return the fixed placeholder in mock mode, else return the first
segment of the model response. -/
def analyzeHotList (mock : Bool) (items : List HotItem)
    (api : Except Unit (List ContentBlock)) : Except Unit JSVal :=
  let _itemsText := promptItemsText items
  if mock then .ok (.str mockAnalysis)
  else modelFirstText api

/-- Observable outcome of one Pipeline B `run`: whether the raw-data file
and the report file were written, and the process exit code (none means
the run returned normally). -/
structure RunResult where
  rawWritten : Bool
  reportWritten : Bool
  exitCode : Option Nat
deriving DecidableEq, Repr

/-- `run` from the source: fetch, save the raw data, analyze, save the
report; any thrown error is caught at the top level and exits the process
with code 1.  File writes are modeled as succeeding. -/
def run (mock : Bool) (henv : HotFetchEnv)
    (api : Except Unit (List ContentBlock)) : RunResult :=
  match fetchHotList henv with
  | .error _ => ⟨false, false, some 1⟩
  | .ok items =>
    match analyzeHotList mock items api with
    | .error _ => ⟨true, false, some 1⟩
    | .ok _ => ⟨true, true, none⟩

end Tophub

/-- Spec-side filter used to state claim C6: what one raw `[Title](URL)`
occurrence contributes to the extractor output, per the spec sentence "an
item is emitted only if both title and link are non-empty after trimming
and the link textually starts with http". -/
def emitItem (p : List Char × List Char) : Option ArticleItem :=
  let title := trim p.1
  let link := trim p.2
  if !title.isEmpty && !link.isEmpty && httpChars.isPrefixOf link then
    some ⟨title, link⟩
  else none

/-! ## Helper lemmas -/

theorem startsWithFailed_failSentinel (url : List Char) :
    startsWithFailed (failSentinel url) = true := by
  unfold startsWithFailed failSentinel
  rw [List.isPrefixOf_iff_prefix]
  have h : "[Failed to fetch content from ".toList
      = "[Failed".toList ++ " to fetch content from ".toList := by decide
  rw [h, List.append_assoc, List.append_assoc]
  exact List.prefix_append _ _

theorem parseAux_eq_scanAux_filterMap (fuel : Nat) :
    ∀ l : List Char,
      parseMarkdownLinksAux fuel l = (scanLinksAux fuel l).filterMap emitItem := by
  induction fuel with
  | zero => intro l; rfl
  | succ n ih =>
    intro l
    cases l with
    | nil => rfl
    | cons c rest =>
      by_cases hc : c = '['
      · subst hc
        simp only [parseMarkdownLinksAux, scanLinksAux, if_pos rfl]
        cases hm : matchAt rest with
        | none => exact ih rest
        | some tur =>
          obtain ⟨t, u, r⟩ := tur
          by_cases hcond :
              (!(trim t).isEmpty && !(trim u).isEmpty
                && httpChars.isPrefixOf (trim u)) = true
          · simp [List.filterMap_cons, emitItem, hcond, ih r]
          · simp [List.filterMap_cons, emitItem, eq_false_of_ne_true hcond, ih r]
      · simp only [parseMarkdownLinksAux, scanLinksAux, if_neg hc]
        exact ih rest

/-! ## Claim theorems -/

/-- C6: for all input text, `parseMarkdownLinks` emits exactly one item per
`[Title](URL)` occurrence whose trimmed title and trimmed link are
non-empty and whose trimmed link starts with "http", in left-to-right
order of appearance (`scanLinks` enumerates the occurrences in order and
`emitItem` is the per-occurrence filter); every occurrence not matching
this shape is ignored, and every emitted item satisfies the shape. -/
theorem claim_C6_extractor (l : List Char) :
    parseMarkdownLinks l = (scanLinks l).filterMap emitItem
    ∧ ∀ it ∈ parseMarkdownLinks l,
        it.title ≠ [] ∧ it.link ≠ [] ∧ httpChars.isPrefixOf it.link = true := by
  have h := parseAux_eq_scanAux_filterMap l.length l
  refine ⟨h, ?_⟩
  intro it hit
  unfold parseMarkdownLinks at hit
  rw [h, List.mem_filterMap] at hit
  obtain ⟨p, -, hp⟩ := hit
  unfold emitItem at hp
  by_cases hcond :
      (!(trim p.1).isEmpty && !(trim p.2).isEmpty
        && httpChars.isPrefixOf (trim p.2)) = true
  · simp only [hcond, if_true, Option.some.injEq] at hp
    subst hp
    simp only [Bool.and_eq_true, Bool.not_eq_true'] at hcond
    obtain ⟨⟨h1, h2⟩, h3⟩ := hcond
    refine ⟨?_, ?_, h3⟩
    · intro hcontra
      have hc : trim p.1 = [] := hcontra
      rw [hc] at h1
      simp at h1
    · intro hcontra
      have hc : trim p.2 = [] := hcontra
      rw [hc] at h2
      simp at h2
  · simp [eq_false_of_ne_true hcond] at hp

/-- Witness for C6 at a concrete text containing one conforming and one
non-conforming occurrence. -/
theorem claim_C6_extractor_witness :
    parseMarkdownLinks "[x](y) [ AI News ]( https://e.com/a )".toList
      = (scanLinks "[x](y) [ AI News ]( https://e.com/a )".toList).filterMap emitItem
    ∧ (⟨"AI News".toList, "https://e.com/a".toList⟩ : ArticleItem).title ≠ [] :=
  ⟨(claim_C6_extractor "[x](y) [ AI News ]( https://e.com/a )".toList).1,
   ((claim_C6_extractor "[x](y) [ AI News ]( https://e.com/a )".toList).2
      ⟨"AI News".toList, "https://e.com/a".toList⟩ (by decide)).1⟩

/-- C9: the extractor is a deterministic function of its input text; two
runs on the same text give identical output (the source builds a fresh
regex per call, so no state survives between runs). -/
theorem claim_C9_deterministic (s t : List Char) (h : s = t) :
    parseMarkdownLinks s = parseMarkdownLinks t := by rw [h]

/-- Witness for C9 at a concrete text. -/
theorem claim_C9_deterministic_witness :
    parseMarkdownLinks "1. [a](http://b)".toList
      = parseMarkdownLinks "1. [a](http://b)".toList :=
  claim_C9_deterministic "1. [a](http://b)".toList "1. [a](http://b)".toList rfl

/-- C3: `fetchArticleContent` is total (never throws): it returns either a
plain-text excerpt of at most 15000 characters, or the sentinel string on
every failure path; the sentinel starts with the fixed prefix and embeds
the requested URL. -/
theorem claim_C3_fetcher (url : List Char) (env : FetchEnv) :
    ((fetchArticleContent url env).length ≤ 15000
      ∨ fetchArticleContent url env = failSentinel url)
    ∧ (env.isSuccess = false → fetchArticleContent url env = failSentinel url)
    ∧ "[Failed to fetch content from ".toList <+: failSentinel url
    ∧ url <:+: failSentinel url := by
  refine ⟨?_, ?_, ?_, ?_⟩
  · cases env with
    | transportError => exact Or.inr rfl
    | httpNotOk s => exact Or.inr rfl
    | parseNull => exact Or.inr rfl
    | parsed t =>
      by_cases ht : t.isEmpty = true
      · refine Or.inr ?_
        show (if t.isEmpty then failSentinel url else (trim t).take 15000)
            = failSentinel url
        rw [if_pos ht]
      · refine Or.inl ?_
        show (if t.isEmpty then failSentinel url else (trim t).take 15000).length
            ≤ 15000
        rw [if_neg ht]
        simp [List.length_take]
  · intro hf
    cases env with
    | transportError => rfl
    | httpNotOk s => rfl
    | parseNull => rfl
    | parsed t =>
      simp only [FetchEnv.isSuccess, Bool.not_eq_false'] at hf
      show (if t.isEmpty then failSentinel url else (trim t).take 15000)
          = failSentinel url
      rw [if_pos hf]
  · exact List.prefix_append _ _
  · exact ⟨"[Failed to fetch content from ".toList, "]".toList, rfl⟩

/-- Witness for C3 at a concrete URL and a failing environment. -/
theorem claim_C3_fetcher_witness :
    fetchArticleContent "http://u".toList FetchEnv.transportError
      = failSentinel "http://u".toList :=
  (claim_C3_fetcher "http://u".toList FetchEnv.transportError).2.1 rfl

/-- C8: with mock mode enabled, `generateContent` returns the same fixed
placeholder whatever the model environment would have answered (so no
network call can influence it), the placeholder is returned without error,
and it contains the literal article title. -/
theorem claim_C8_mock (articleTitle articleContent sourceLink : List Char)
    (api1 api2 : Except Unit (List ContentBlock)) :
    generateContent true articleTitle articleContent sourceLink api1
      = generateContent true articleTitle articleContent sourceLink api2
    ∧ generateContent true articleTitle articleContent sourceLink api1
      = .ok (.str (mockContent articleTitle))
    ∧ articleTitle <:+: mockContent articleTitle :=
  ⟨rfl, rfl,
   ⟨"# Mock Content for ".toList, "\n\nGenerated in Mock Mode.".toList, rfl⟩⟩

/-- Counterexample for C4: in live mode, a response whose first segment is
a non-text block does NOT produce a propagated error in either pipeline;
reading the missing `text` property yields the JavaScript value
`undefined`, which is returned as a normal (ok) result. -/
theorem claim_C4_counterexample :
    generateContent false "t".toList "c".toList "l".toList
        (.ok [ContentBlock.other]) = .ok .undefined
    ∧ (∀ e : Unit, generateContent false "t".toList "c".toList "l".toList
        (.ok [ContentBlock.other]) ≠ .error e)
    ∧ Tophub.analyzeHotList false [] (.ok [ContentBlock.other]) = .ok .undefined
    ∧ (∀ e : Unit, Tophub.analyzeHotList false [] (.ok [ContentBlock.other])
        ≠ .error e) := by
  refine ⟨rfl, ?_, rfl, ?_⟩
  · intro e h
    simp [generateContent, modelFirstText, jsFirstText] at h
  · intro e h
    simp [Tophub.analyzeHotList, modelFirstText, jsFirstText] at h

/-- C4 as amended: in live mode both `generateContent` and
`analyzeHotList` return the first text segment of the response verbatim;
an empty content list (and a rejected model call) is an error propagated
to the caller; but a non-text first segment is returned as the value
`undefined` without an error. -/
theorem claim_C4_amended (articleTitle articleContent sourceLink s : List Char)
    (bs : List ContentBlock) (items : List Tophub.HotItem) :
    generateContent false articleTitle articleContent sourceLink
        (.ok (.text s :: bs)) = .ok (.str s)
    ∧ generateContent false articleTitle articleContent sourceLink
        (.ok []) = .error ()
    ∧ generateContent false articleTitle articleContent sourceLink
        (.error ()) = .error ()
    ∧ generateContent false articleTitle articleContent sourceLink
        (.ok (.other :: bs)) = .ok .undefined
    ∧ Tophub.analyzeHotList false items (.ok (.text s :: bs)) = .ok (.str s)
    ∧ Tophub.analyzeHotList false items (.ok []) = .error ()
    ∧ Tophub.analyzeHotList false items (.error ()) = .error ()
    ∧ Tophub.analyzeHotList false items (.ok (.other :: bs)) = .ok .undefined :=
  ⟨rfl, rfl, rfl, rfl, rfl, rfl, rfl, rfl⟩

/-- Counterexample for C5: a Pipeline B run whose fetch succeeds and whose
analysis throws exits with code 1, but the raw-data file has already been
written and remains behind — a partial output of the failed run, contrary
to the claim that no partial output is left behind. -/
theorem claim_C5_counterexample :
    (Tophub.run false (.response true []) (.error ())).exitCode = some 1
    ∧ (Tophub.run false (.response true []) (.error ())).rawWritten = true
    ∧ (Tophub.run false (.response true []) (.error ())).reportWritten
        = false :=
  ⟨rfl, rfl, rfl⟩

/-- C5 as amended: whenever fetching or analysis throws, the run exits the
process with code 1 and no analysis report is written; the exit code is
always either normal or 1; the report is written exactly on normal runs.
If the failure happens at analysis, the raw-data file written before it
remains behind. -/
theorem claim_C5_amended (mock : Bool) (henv : Tophub.HotFetchEnv)
    (api : Except Unit (List ContentBlock)) :
    (Tophub.fetchHotList henv = .error () →
      Tophub.run mock henv api = ⟨false, false, some 1⟩)
    ∧ (∀ items, Tophub.fetchHotList henv = .ok items →
        Tophub.analyzeHotList mock items api = .error () →
        Tophub.run mock henv api = ⟨true, false, some 1⟩)
    ∧ ((Tophub.run mock henv api).exitCode = none
        ∨ (Tophub.run mock henv api).exitCode = some 1)
    ∧ ((Tophub.run mock henv api).reportWritten = true
        ↔ (Tophub.run mock henv api).exitCode = none) := by
  refine ⟨?_, ?_, ?_, ?_⟩
  · intro hf
    simp [Tophub.run, hf]
  · intro items hf ha
    simp [Tophub.run, hf, ha]
  · cases hf : Tophub.fetchHotList henv with
    | error e => simp [Tophub.run, hf]
    | ok items =>
      cases ha : Tophub.analyzeHotList mock items api with
      | error e => simp [Tophub.run, hf, ha]
      | ok v => simp [Tophub.run, hf, ha]
  · cases hf : Tophub.fetchHotList henv with
    | error e => simp [Tophub.run, hf]
    | ok items =>
      cases ha : Tophub.analyzeHotList mock items api with
      | error e => simp [Tophub.run, hf, ha]
      | ok v => simp [Tophub.run, hf, ha]

/-- Witness for C5 as amended, at a transport failure. -/
theorem claim_C5_amended_witness :
    Tophub.run false Tophub.HotFetchEnv.transportError (.ok [])
      = ⟨false, false, some 1⟩ :=
  (claim_C5_amended false Tophub.HotFetchEnv.transportError (.ok [])).1 rfl

/-- C2: given that the detected file still exists when processing starts
(reads, writes and the rename are modeled as succeeding), extraction
yielding zero items is the only case in which `processInputFile` does not
archive the file, and in that case it creates no output file and fires no
verification hook. -/
theorem claim_C2_zero_links (filename content : List Char) (env : ProcEnv)
    (hex : env.fileExists = true) :
    ((processInputFile filename content env).archivePath = none
      ↔ parseMarkdownLinks content = [])
    ∧ (parseMarkdownLinks content = [] →
        processInputFile filename content env = ⟨0, 0, none, false⟩) := by
  unfold processInputFile
  rw [hex]
  by_cases hz : (parseMarkdownLinks content).isEmpty = true
  · rw [List.isEmpty_iff] at hz
    simp [hz]
  · rw [Bool.not_eq_true, List.isEmpty_eq_false] at hz
    simp [hz]

/-- Witness for C2 at a concrete file with no links. -/
theorem claim_C2_zero_links_witness :
    processInputFile "links.md".toList "no links in here".toList
        ⟨true, false, 7, fun _ => FetchEnv.transportError, fun _ => .ok []⟩
      = ⟨0, 0, none, false⟩ :=
  (claim_C2_zero_links "links.md".toList "no links in here".toList
      ⟨true, false, 7, fun _ => FetchEnv.transportError, fun _ => .ok []⟩
      rfl).2 (by decide)

theorem scrapeItem_eq_none_iff (el : Tophub.ChildItem) :
    Tophub.scrapeItem el = none ↔ (trim el.titleTxt).isEmpty = true := by
  simp only [Tophub.scrapeItem]
  by_cases hT : (trim el.titleTxt).isEmpty = true
  · simp [hT]
  · simp [hT]

theorem scrapeItem_some_fields {el : Tophub.ChildItem} {it : Tophub.HotItem}
    (h : Tophub.scrapeItem el = some it) :
    it.rank = trim el.rankTxt
    ∧ it.title = trim el.titleTxt
    ∧ it.link = (if httpChars.isPrefixOf (el.href.getD []) then el.href.getD []
        else Tophub.origin ++ el.href.getD [])
    ∧ it.hot = (((trim el.smallTxt).splitOn Tophub.sepDot).map trim).getD 1 []
    ∧ it.source
        = (((trim el.smallTxt).splitOn Tophub.sepDot).map trim).getD 0 [] := by
  simp only [Tophub.scrapeItem] at h
  by_cases hT : (trim el.titleTxt).isEmpty = true
  · simp [hT] at h
  · rw [if_neg hT] at h
    injection h with h2
    subst h2
    exact ⟨rfl, rfl, rfl, rfl, rfl⟩

/-- C7: `fetchHotList` keeps a scraped node exactly when its trimmed title
is non-empty; the popularity field is empty (not an error) when the label
lacks the middle-dot separator, and rank/source/popularity are empty when
their source texts are absent; non-http links are resolved by prepending
the site origin; and the returned items preserve DOM (scrape) order, never
a re-sort by popularity. -/
theorem claim_C7_scraper (nodes : List Tophub.ChildItem) (el : Tophub.ChildItem)
    (it : Tophub.HotItem) :
    ((Tophub.scrapeItem el).isSome = true ↔ trim el.titleTxt ≠ [])
    ∧ (Tophub.scrapeItem el = some it →
        it.title = trim el.titleTxt
        ∧ it.rank = trim el.rankTxt
        ∧ (Tophub.sepDot ∉ trim el.smallTxt → it.hot = [])
        ∧ (el.smallTxt = [] → it.source = [] ∧ it.hot = [])
        ∧ (httpChars.isPrefixOf (el.href.getD []) = true →
            it.link = el.href.getD [])
        ∧ (httpChars.isPrefixOf (el.href.getD []) = false →
            it.link = Tophub.origin ++ el.href.getD []))
    ∧ Tophub.fetchHotList (.response true nodes)
        = .ok (nodes.filterMap Tophub.scrapeItem)
    ∧ (nodes.filterMap Tophub.scrapeItem).map Tophub.HotItem.title
        = (nodes.map fun n => trim n.titleTxt).filter (fun t => !t.isEmpty) := by
  refine ⟨?_, ?_, rfl, ?_⟩
  · constructor
    · intro hs hcontra
      have hT : (trim el.titleTxt).isEmpty = true := by simp [hcontra]
      rw [(scrapeItem_eq_none_iff el).mpr hT] at hs
      simp at hs
    · intro hne
      cases hsc : Tophub.scrapeItem el with
      | some _ => rfl
      | none =>
        exact absurd (List.isEmpty_iff.mp ((scrapeItem_eq_none_iff el).mp hsc))
          hne
  · intro hsome
    obtain ⟨hrank, htitle, hlink, hhot, hsource⟩ := scrapeItem_some_fields hsome
    refine ⟨htitle, hrank, ?_, ?_, ?_, ?_⟩
    · intro hns
      have hsplit : (trim el.smallTxt).splitOn Tophub.sepDot
          = [trim el.smallTxt] := by
        unfold List.splitOn
        apply List.splitOnP_eq_single
        intro x hx
        simp only [beq_iff_eq]
        intro hxe
        rw [hxe] at hx
        exact hns hx
      rw [hhot, hsplit]
      rfl
    · intro hsm
      constructor
      · rw [hsource, hsm]
        rfl
      · rw [hhot, hsm]
        rfl
    · intro hp
      rw [hlink, if_pos hp]
    · intro hp
      rw [hlink]
      simp [hp]
  · induction nodes with
    | nil => rfl
    | cons n ns ih =>
      cases hs : Tophub.scrapeItem n with
      | none =>
        have hT := (scrapeItem_eq_none_iff n).mp hs
        simp [List.filterMap_cons, hs, List.filter_cons, hT, ih]
      | some itn =>
        have hT : (trim n.titleTxt).isEmpty = false := by
          by_contra hc
          rw [Bool.not_eq_false] at hc
          rw [(scrapeItem_eq_none_iff n).mpr hc] at hs
          exact Option.noConfusion hs
        have htitle := (scrapeItem_some_fields hs).2.1
        simp [List.filterMap_cons, hs, List.filter_cons, hT, htitle, ih]

/-- Witness for C7 at a concrete node whose label has no separator and
whose link is relative. -/
theorem claim_C7_scraper_witness :
    (⟨"1".toList, "T".toList, "https://tophub.today/x".toList, [],
        "solo".toList⟩ : Tophub.HotItem).hot = []
    ∧ (⟨"1".toList, "T".toList, "https://tophub.today/x".toList, [],
        "solo".toList⟩ : Tophub.HotItem).link
      = Tophub.origin ++ "/x".toList := by
  have h2 := (claim_C7_scraper []
      ⟨"1".toList, "T".toList, some "/x".toList, "solo".toList⟩
      ⟨"1".toList, "T".toList, "https://tophub.today/x".toList, [],
        "solo".toList⟩).2.1 (by decide)
  exact ⟨h2.2.2.1 (by decide), h2.2.2.2.2.2 (by decide)⟩

theorem countP_split (d : α → Bool) (l : List α) :
    l.countP d + l.countP (fun a => !d a) = l.length := by
  induction l with
  | nil => rfl
  | cons a l ih =>
    rw [List.countP_cons, List.countP_cons, List.length_cons]
    by_cases h : d a = true
    · simp only [h, Bool.not_true, if_true]
      simp
      omega
    · simp only [h, eq_false_of_ne_true h, Bool.not_false, if_false]
      simp
      omega

theorem enumFrom_len (i : Nat) (l : List α) : (l.enumFrom i).length = l.length := by
  induction l generalizing i with
  | nil => rfl
  | cons a l ih => simp [List.enumFrom_cons, ih]

theorem enum_len (l : List α) : l.enum.length = l.length :=
  enumFrom_len 0 l

theorem runTask_isSkip_iff (env : ProcEnv) (i : Nat) (a : ArticleItem)
    (hsen : startsWithFailed (fetchArticleContent a.link (env.fetchEnv i)) = true →
      fetchArticleContent a.link (env.fetchEnv i) = failSentinel a.link) :
    TaskOutcome.isSkip (runTask env i a) = true
      ↔ fetchArticleContent a.link (env.fetchEnv i) = failSentinel a.link := by
  simp only [runTask]
  by_cases hs : startsWithFailed (fetchArticleContent a.link (env.fetchEnv i)) = true
  · rw [if_pos hs]
    simp [TaskOutcome.isSkip, hsen hs]
  · rw [if_neg hs]
    constructor
    · intro hsk
      cases hg : generateContent env.mockMode a.title
          (fetchArticleContent a.link (env.fetchEnv i)) a.link (env.apiResp i) with
      | error e =>
        rw [hg] at hsk
        simp [TaskOutcome.isSkip] at hsk
      | ok v =>
        rw [hg] at hsk
        simp [TaskOutcome.isSkip] at hsk
    · intro hsent
      have hstart : startsWithFailed (fetchArticleContent a.link (env.fetchEnv i))
          = true := by
        rw [hsent]
        exact startsWithFailed_failSentinel a.link
      exact absurd hstart hs

theorem runTask_isSaved_iff (env : ProcEnv) (i : Nat) (a : ArticleItem)
    (hsen : startsWithFailed (fetchArticleContent a.link (env.fetchEnv i)) = true →
      fetchArticleContent a.link (env.fetchEnv i) = failSentinel a.link)
    (hgen : startsWithFailed (fetchArticleContent a.link (env.fetchEnv i)) = false →
      Except.isOk (generateContent env.mockMode a.title
        (fetchArticleContent a.link (env.fetchEnv i)) a.link (env.apiResp i))
        = true) :
    TaskOutcome.isSaved (runTask env i a) = true
      ↔ ¬ fetchArticleContent a.link (env.fetchEnv i) = failSentinel a.link := by
  simp only [runTask]
  by_cases hs : startsWithFailed (fetchArticleContent a.link (env.fetchEnv i)) = true
  · rw [if_pos hs]
    simp [TaskOutcome.isSaved, hsen hs]
  · rw [if_neg hs]
    have hfne : ¬ fetchArticleContent a.link (env.fetchEnv i)
        = failSentinel a.link := by
      intro hsent
      have hstart : startsWithFailed (fetchArticleContent a.link (env.fetchEnv i))
          = true := by
        rw [hsent]
        exact startsWithFailed_failSentinel a.link
      exact absurd hstart hs
    have hgen2 := hgen (eq_false_of_ne_true hs)
    cases hg : generateContent env.mockMode a.title
        (fetchArticleContent a.link (env.fetchEnv i)) a.link (env.apiResp i) with
    | error e =>
      rw [hg] at hgen2
      simp [Except.isOk, Except.toBool] at hgen2
    | ok v =>
      simp [TaskOutcome.isSaved, hfne]

/-- Counterexample for C1: one link whose fetch succeeds with article text
that itself begins with "[Failed".  The fetcher does not return its
sentinel (M = 0) and generation would succeed (mock mode), so the claim
predicts 0 skipped tasks and 1 output file; the code skips the task and
creates no output. -/
theorem claim_C1_counterexample :
    parseMarkdownLinks "[A](http://x)".toList
      = [⟨"A".toList, "http://x".toList⟩]
    ∧ fetchArticleContent "http://x".toList
        (FetchEnv.parsed "[Failed thing".toList)
      ≠ failSentinel "http://x".toList
    ∧ Except.isOk (generateContent true "A".toList
        (fetchArticleContent "http://x".toList
          (FetchEnv.parsed "[Failed thing".toList))
        "http://x".toList (.ok [])) = true
    ∧ ¬ ((processInputFile "l.md".toList "[A](http://x)".toList
          ⟨true, true, 5, fun _ => FetchEnv.parsed "[Failed thing".toList,
            fun _ => .ok []⟩).skipped = 0
        ∧ (processInputFile "l.md".toList "[A](http://x)".toList
          ⟨true, true, 5, fun _ => FetchEnv.parsed "[Failed thing".toList,
            fun _ => .ok []⟩).outputsCount = 1) := by
  refine ⟨by decide, by decide, rfl, ?_⟩
  intro hcl
  have h1 : (processInputFile "l.md".toList "[A](http://x)".toList
      ⟨true, true, 5, fun _ => FetchEnv.parsed "[Failed thing".toList,
        fun _ => .ok []⟩).skipped = 1 := by decide
  rw [hcl.1] at h1
  exact Nat.noConfusion h1

/-- C1 as amended: suppose the file still exists, extraction yields a
non-empty list, every per-article fetch result that begins with "[Failed"
is the genuine sentinel (the amendment the counterexample forces: no
successfully fetched excerpt may itself begin with "[Failed"), and
generation succeeds for every non-skipped article.  Then the number of
skipped tasks equals the number M of articles whose fetch returned the
sentinel, exactly N − M output files are created, and the file is archived
exactly once, under the epoch-millisecond prefix preserving the original
name, regardless of M. -/
theorem claim_C1_amended (filename content : List Char) (env : ProcEnv)
    (hex : env.fileExists = true)
    (hne : parseMarkdownLinks content ≠ [])
    (hsen : ∀ p ∈ (parseMarkdownLinks content).enum,
      startsWithFailed (fetchArticleContent p.2.link (env.fetchEnv p.1)) = true →
        fetchArticleContent p.2.link (env.fetchEnv p.1) = failSentinel p.2.link)
    (hgen : ∀ p ∈ (parseMarkdownLinks content).enum,
      startsWithFailed (fetchArticleContent p.2.link (env.fetchEnv p.1)) = false →
        Except.isOk (generateContent env.mockMode p.2.title
          (fetchArticleContent p.2.link (env.fetchEnv p.1)) p.2.link
          (env.apiResp p.1)) = true) :
    (processInputFile filename content env).skipped
      = (parseMarkdownLinks content).enum.countP
          (fun p => decide (fetchArticleContent p.2.link (env.fetchEnv p.1)
            = failSentinel p.2.link))
    ∧ (processInputFile filename content env).outputsCount
      = (parseMarkdownLinks content).length
        - (parseMarkdownLinks content).enum.countP
            (fun p => decide (fetchArticleContent p.2.link (env.fetchEnv p.1)
              = failSentinel p.2.link))
    ∧ (processInputFile filename content env).archivePath
      = some ((Nat.repr env.now).toList ++ '_' :: filename) := by
  have hzF : (parseMarkdownLinks content).isEmpty = false := by
    rw [List.isEmpty_eq_false]
    exact hne
  simp only [processInputFile, hex, hzF, Bool.false_eq_true, if_false, if_true]
  have hskip :
      ((parseMarkdownLinks content).enum.map
          (fun p => runTask env p.1 p.2)).countP TaskOutcome.isSkip
        = (parseMarkdownLinks content).enum.countP
            (fun p => decide (fetchArticleContent p.2.link (env.fetchEnv p.1)
              = failSentinel p.2.link)) := by
    rw [List.countP_map]
    apply List.countP_congr
    intro p hp
    simpa [Function.comp] using runTask_isSkip_iff env p.1 p.2 (hsen p hp)
  have hsaved :
      ((parseMarkdownLinks content).enum.map
          (fun p => runTask env p.1 p.2)).countP TaskOutcome.isSaved
        = (parseMarkdownLinks content).enum.countP
            (fun p => !(decide (fetchArticleContent p.2.link (env.fetchEnv p.1)
              = failSentinel p.2.link))) := by
    rw [List.countP_map]
    apply List.countP_congr
    intro p hp
    simpa [Function.comp] using
      runTask_isSaved_iff env p.1 p.2 (hsen p hp) (hgen p hp)
  have hsplit := countP_split
    (fun p : Nat × ArticleItem =>
      decide (fetchArticleContent p.2.link (env.fetchEnv p.1)
        = failSentinel p.2.link))
    (parseMarkdownLinks content).enum
  have hlen := enum_len (parseMarkdownLinks content)
  refine ⟨hskip, ?_, ?_⟩
  · rw [hsaved]
    omega
  · trivial

/-- Witness for C1 as amended: a two-link file, the first fetch failing
with the sentinel and the second succeeding, under mock generation. -/
theorem claim_C1_amended_witness :
    (processInputFile "links.md".toList
        "[A](http://a) [B](http://b)".toList
        ⟨true, true, 5,
          fun i => if i = 0 then FetchEnv.transportError
            else FetchEnv.parsed "good article text".toList,
          fun _ => .ok []⟩).skipped
      = (parseMarkdownLinks "[A](http://a) [B](http://b)".toList).enum.countP
          (fun p => decide (fetchArticleContent p.2.link
            ((fun i => if i = 0 then FetchEnv.transportError
              else FetchEnv.parsed "good article text".toList) p.1)
            = failSentinel p.2.link))
    ∧ (processInputFile "links.md".toList
        "[A](http://a) [B](http://b)".toList
        ⟨true, true, 5,
          fun i => if i = 0 then FetchEnv.transportError
            else FetchEnv.parsed "good article text".toList,
          fun _ => .ok []⟩).outputsCount
      = (parseMarkdownLinks "[A](http://a) [B](http://b)".toList).length
        - (parseMarkdownLinks "[A](http://a) [B](http://b)".toList).enum.countP
            (fun p => decide (fetchArticleContent p.2.link
              ((fun i => if i = 0 then FetchEnv.transportError
                else FetchEnv.parsed "good article text".toList) p.1)
              = failSentinel p.2.link))
    ∧ (processInputFile "links.md".toList
        "[A](http://a) [B](http://b)".toList
        ⟨true, true, 5,
          fun i => if i = 0 then FetchEnv.transportError
            else FetchEnv.parsed "good article text".toList,
          fun _ => .ok []⟩).archivePath
      = some ((Nat.repr 5).toList ++ '_' :: "links.md".toList) :=
  claim_C1_amended "links.md".toList "[A](http://a) [B](http://b)".toList
    ⟨true, true, 5,
      fun i => if i = 0 then FetchEnv.transportError
        else FetchEnv.parsed "good article text".toList,
      fun _ => .ok []⟩
    rfl (by decide) (by decide) (by decide)

/-- C10: the per-article skip check tests only the prefix "[Failed", not
the full sentinel; consequently an article whose fetch succeeds but whose
readable text itself begins with "[Failed" is treated as a fetch failure
and produces no output file. -/
theorem claim_C10_skip_prefix :
    (∀ c : List Char, startsWithFailed c = true ↔ "[Failed".toList <+: c)
    ∧ (∀ url : List Char, startsWithFailed (failSentinel url) = true)
    ∧ FetchEnv.isSuccess
        (.parsed "[Failed rocket launch, why it matters".toList) = true
    ∧ fetchArticleContent "http://news.example".toList
        (.parsed "[Failed rocket launch, why it matters".toList)
      ≠ failSentinel "http://news.example".toList
    ∧ (processInputFile "hot.md".toList "[A](http://news.example)".toList
        ⟨true, true, 9,
          fun _ => FetchEnv.parsed "[Failed rocket launch, why it matters".toList,
          fun _ => .ok []⟩).outputsCount = 0
    ∧ (processInputFile "hot.md".toList "[A](http://news.example)".toList
        ⟨true, true, 9,
          fun _ => FetchEnv.parsed "[Failed rocket launch, why it matters".toList,
          fun _ => .ok []⟩).skipped = 1 := by
  refine ⟨?_, startsWithFailed_failSentinel, by decide, by decide,
    by decide, by decide⟩
  intro c
  unfold startsWithFailed
  exact List.isPrefixOf_iff_prefix
